import Mathlib

/-!
Verification development for the core of the Monkey tree-walking
interpreter (lexer, Pratt parser, evaluator, object system, builtins).

The Go source operates on bytes and mutable structs.  The embedding
represents source text as a list of byte values (`List Nat`, each < 256
in practice), lexer and parser state as immutable records threaded
through the functions, and the mutable environment heap as a list of
frames addressed by index (allocation appends, so a frame's `outer`
pointer always refers to an earlier index).  Loops are expressed as
fuel-indexed recursions; the fuel budgets chosen inside the lexer are
large enough that the cutoff branch is unreachable, and the evaluator
and parser take the fuel as an explicit argument (running out of fuel
returns `none`, which also models host-level traps such as division by
zero or a failing type assertion).
-/

/-! ## Tokens (package token) -/

structure Token where
  tokType : String
  literal : String
deriving Repr, DecidableEq

/-- LookupIdent checks the keyword table and falls back to IDENT. -/
def LookupIdent (ident : String) : String :=
  if ident = "fn" then "FUNCTION"
  else if ident = "let" then "LET"
  else if ident = "true" then "TRUE"
  else if ident = "false" then "FALSE"
  else if ident = "if" then "IF"
  else if ident = "else" then "ELSE"
  else if ident = "return" then "RETURN"
  else "IDENT"

/-! ## Lexer (package lexer)

`input` is the source as a list of byte values; `ch = 0` is the
end-of-input sentinel exactly as in the source, where `l.ch` is a Go
byte. Token literals are rebuilt as strings by mapping each byte to the
character with that code point (exact for ASCII, which is all the lexer
itself ever inspects). -/

structure Lexer where
  input : List Nat
  position : Nat
  readPosition : Nat
  ch : Nat
deriving Repr, DecidableEq

def lexReadChar (l : Lexer) : Lexer :=
  Lexer.mk l.input l.readPosition (l.readPosition + 1)
    (if l.input.length ≤ l.readPosition then 0 else l.input.getD l.readPosition 0)

def lexNew (input : List Nat) : Lexer :=
  lexReadChar (Lexer.mk input 0 0 0)

def lexPeekChar (l : Lexer) : Nat :=
  if l.input.length ≤ l.readPosition then 0 else l.input.getD l.readPosition 0

def isLetterB (ch : Nat) : Bool :=
  (97 ≤ ch && ch ≤ 122) || (65 ≤ ch && ch ≤ 90) || ch = 95

def isDigitB (ch : Nat) : Bool :=
  48 ≤ ch && ch ≤ 57

def isWhitespaceB (ch : Nat) : Bool :=
  ch = 32 || ch = 9 || ch = 10 || ch = 13

/-- Bytes of `input` from index `start` (inclusive) to `stop` (exclusive),
the rendering of the Go slice expression input[start:stop]. -/
def sliceBytes (input : List Nat) (start stop : Nat) : List Nat :=
  (input.take stop).drop start

def bytesToString (bs : List Nat) : String :=
  String.mk (bs.map Char.ofNat)

/-- One step of skipWhitespace per fuel unit.  The budget passed by
`lexSkipWhitespace` always suffices: every step advances
`readPosition`, and once it passes the end of the input `ch` becomes 0,
which is not whitespace. -/
def lexSkipWSAux : Nat → Lexer → Lexer
  | 0, l => l
  | n + 1, l => if isWhitespaceB l.ch then lexSkipWSAux n (lexReadChar l) else l

def lexSkipWhitespace (l : Lexer) : Lexer :=
  lexSkipWSAux (l.input.length + 2) l

def lexReadIdentAux : Nat → Lexer → Lexer
  | 0, l => l
  | n + 1, l => if isLetterB l.ch then lexReadIdentAux n (lexReadChar l) else l

/-- readIdentifier: scan a maximal run of letters, return the slice. -/
def lexReadIdentifier (l : Lexer) : String × Lexer :=
  let l' := lexReadIdentAux (l.input.length + 2) l
  (bytesToString (sliceBytes l.input l.position l'.position), l')

def lexReadNumAux : Nat → Lexer → Lexer
  | 0, l => l
  | n + 1, l => if isDigitB l.ch then lexReadNumAux n (lexReadChar l) else l

/-- readNumber: scan a maximal run of digits, return the slice. -/
def lexReadNumber (l : Lexer) : String × Lexer :=
  let l' := lexReadNumAux (l.input.length + 2) l
  (bytesToString (sliceBytes l.input l.position l'.position), l')

/-- readString loop: advance first, then stop on a closing quote or on
the 0 sentinel (do-while shape, as in the source). -/
def lexReadStringAux : Nat → Lexer → Lexer
  | 0, l => l
  | n + 1, l =>
    let l' := lexReadChar l
    if l'.ch = 34 || l'.ch = 0 then l' else lexReadStringAux n l'

/-- readString: contents between the quotes (silently cut short at
end-of-input for an unterminated literal). -/
def lexReadString (l : Lexer) : String × Lexer :=
  let l' := lexReadStringAux (l.input.length + 2) l
  (bytesToString (sliceBytes l.input (l.position + 1) l'.position), l')

/-- The switch of NextToken: dispatch on the current byte, and for the
single- and two-character tokens advance once before returning. -/
def lexDispatch (l : Lexer) : Token × Lexer :=
  if l.ch = 61 then
    (if lexPeekChar l = 61 then
      (Token.mk "==" "==", lexReadChar (lexReadChar l))
    else (Token.mk "=" "=", lexReadChar l))
  else if l.ch = 43 then (Token.mk "+" "+", lexReadChar l)
  else if l.ch = 45 then (Token.mk "-" "-", lexReadChar l)
  else if l.ch = 33 then
    (if lexPeekChar l = 61 then
      (Token.mk "!=" "!=", lexReadChar (lexReadChar l))
    else (Token.mk "!" "!", lexReadChar l))
  else if l.ch = 47 then (Token.mk "/" "/", lexReadChar l)
  else if l.ch = 42 then (Token.mk "*" "*", lexReadChar l)
  else if l.ch = 60 then (Token.mk "<" "<", lexReadChar l)
  else if l.ch = 62 then (Token.mk ">" ">", lexReadChar l)
  else if l.ch = 59 then (Token.mk ";" ";", lexReadChar l)
  else if l.ch = 58 then (Token.mk ":" ":", lexReadChar l)
  else if l.ch = 44 then (Token.mk "," "," , lexReadChar l)
  else if l.ch = 123 then (Token.mk "\x7b" "\x7b", lexReadChar l)
  else if l.ch = 125 then (Token.mk "\x7d" "\x7d", lexReadChar l)
  else if l.ch = 40 then (Token.mk "(" "(", lexReadChar l)
  else if l.ch = 41 then (Token.mk ")" ")", lexReadChar l)
  else if l.ch = 34 then
    let (lit, l1) := lexReadString l
    (Token.mk "STRING" lit, lexReadChar l1)
  else if l.ch = 91 then (Token.mk "[" "[", lexReadChar l)
  else if l.ch = 93 then (Token.mk "]" "]", lexReadChar l)
  else if l.ch = 0 then (Token.mk "EOF" "", lexReadChar l)
  else if isLetterB l.ch then
    let (lit, l1) := lexReadIdentifier l
    (Token.mk (LookupIdent lit) lit, l1)
  else if isDigitB l.ch then
    let (lit, l1) := lexReadNumber l
    (Token.mk "INT" lit, l1)
  else (Token.mk "ILLEGAL" (String.mk [Char.ofNat l.ch]), lexReadChar l)

/-- NextToken: skip whitespace, then dispatch on the current byte. -/
def lexNextToken (l0 : Lexer) : Token × Lexer :=
  lexDispatch (lexSkipWhitespace l0)

/-- The token produced by the (k+1)-st call of NextToken starting from
state `l`. -/
def lexNth : Nat → Lexer → Token
  | 0, l => (lexNextToken l).1
  | k + 1, l => lexNth k (lexNextToken l).2

/-- ASCII bytes of a source string, for concrete test inputs. -/
def strToBytes (s : String) : List Nat :=
  s.data.map Char.toNat

/-! ## Abstract syntax tree (package ast)

The node variants carry their semantic payloads.  `HashLiteral.pairs`
renders the Go field `Pairs map[Expression]Expression` as the list of
the map's entries: parsing inserts each freshly parsed key node (always
a distinct map key, since map keys are interface pointers to new nodes)
so the entry set is faithful, while the order in which Go's `range`
enumerates a map is unspecified — theorems about hash literals quantify
over, or exhibit, entry orders explicitly. -/

mutual
inductive Expression where
  | identifier (value : String)
  | integerLiteral (value : Int)
  | booleanLit (value : Bool)
  | stringLiteral (value : String)
  | prefixExpr (operator : String) (right : Expression)
  | infixExpr (operator : String) (left : Expression) (right : Expression)
  | ifExpr (condition : Expression) (consequence : List Statement)
      (alternative : Option (List Statement))
  | functionLiteral (parameters : List String) (body : List Statement)
  | callExpr (function : Expression) (arguments : List Expression)
  | arrayLiteral (elements : List Expression)
  | indexExpr (left : Expression) (index : Expression)
  | hashLiteral (pairs : List (Expression × Expression))

inductive Statement where
  | letStmt (name : String) (value : Expression)
  | returnStmt (value : Expression)
  | exprStmt (expression : Expression)
  | blockStmt (statements : List Statement)
end

/-! ## Parser (package parser) -/

def LOWEST_PREC : Nat := 1
def EQUALS_PREC : Nat := 2
def LESSGREATER_PREC : Nat := 3
def SUM_PREC : Nat := 4
def PRODUCT_PREC : Nat := 5
def PREFIX_PREC : Nat := 6
def CALL_PREC : Nat := 7
def INDEX_PREC : Nat := 8

/-- The precedences map, as an association list over token types (the
token-type constants for operators are their literal spellings). -/
def precedences : List (String × Nat) :=
  [("==", EQUALS_PREC), ("!=", EQUALS_PREC),
   ("<", LESSGREATER_PREC), (">", LESSGREATER_PREC),
   ("+", SUM_PREC), ("-", SUM_PREC),
   ("/", PRODUCT_PREC), ("*", PRODUCT_PREC),
   ("(", CALL_PREC), ("[", INDEX_PREC)]

def lookupAssoc : List (String × Nat) → String → Option Nat
  | [], _ => none
  | (k, v) :: rest, key => if key = k then some v else lookupAssoc rest key

/-- Precedence of a token type, defaulting to LOWEST on a map miss
(shared shape of peekPrecedence and curPrecedence). -/
def precedenceOf (t : String) : Nat :=
  (lookupAssoc precedences t).getD LOWEST_PREC

structure ParserS where
  lex : Lexer
  curToken : Token
  peekToken : Token
  errors : List String

def pNextToken (p : ParserS) : ParserS :=
  let r := lexNextToken p.lex
  ParserS.mk r.2 p.peekToken r.1 p.errors

/-- Parser construction: store the lexer and advance twice to fill
curToken and peekToken (the Go zero value of Token is two empty
strings). -/
def parserNew (l : Lexer) : ParserS :=
  pNextToken (pNextToken (ParserS.mk l (Token.mk "" "") (Token.mk "" "") []))

def peekError (t : String) (p : ParserS) : ParserS :=
  ParserS.mk p.lex p.curToken p.peekToken
    (p.errors ++ ["expected next token to be " ++ t ++ ", got " ++
      p.peekToken.tokType ++ " instead"])

def expectPeek (t : String) (p : ParserS) : Bool × ParserS :=
  if p.peekToken.tokType = t then (true, pNextToken p) else (false, peekError t p)

def noPrefixParseFnError (p : ParserS) : ParserS :=
  ParserS.mk p.lex p.curToken p.peekToken
    (p.errors ++ ["no prefix parse function for " ++ p.curToken.tokType ++ " found"])

/-- strconv.ParseInt with base 0 on a lexer INT literal (a nonempty
digit run): a literal starting with "0" of length > 1 is read in octal
(failing on the digits 8 and 9); otherwise decimal. -/
def goParseIntLit (s : String) : Option Int :=
  let ds := s.data
  if ds = [] then none
  else if ds.head? = some '0' && ds.length > 1 then
    (ds.drop 1).foldl
      (fun acc c => match acc with
        | none => none
        | some n => if c.toNat < 48 || 55 < c.toNat then none
                    else some (n * 8 + (c.toNat - 48)))
      (some 0)
  else
    ds.foldl
      (fun acc c => match acc with
        | none => none
        | some n => if c.toNat < 48 || 57 < c.toNat then none
                    else some (n * 10 + (c.toNat - 48)))
      (some (0 : Int))

/-- Tasks of the parser: the mutually recursive parse functions and
their internal loops, folded into one fuel-indexed recursion. -/
inductive PTask where
  | prog (acc : List Statement)
  | stmtT
  | exprT (precedence : Nat)
  | exprLoop (precedence : Nat) (left : Expression)
  | blockT (acc : List Statement)
  | exprList0 (endType : String)
  | exprListRest (endType : String) (acc : List Expression)
  | fnParams0
  | fnParamsRest (acc : List String)
  | hashPairsT (acc : List (Expression × Expression))

inductive PRes where
  | stmts (ss : List Statement)
  | stmtO (s : Option Statement)
  | exprO (e : Option Expression)
  | exprsO (es : Option (List Expression))
  | identsO (ids : Option (List String))
  | pairsO (ps : Option (List (Expression × Expression)))

/-- The parser.  `none` means the fuel ran out (concrete theorems pass a
budget large enough for their input).  A sub-parse failure is a `some`
result carrying a `none` payload; where the Go code would build a node
with a nil child or append a typed-nil statement, the failure is
propagated instead — the difference is confined to inputs that already
carry parse errors. -/
def parseF : Nat → PTask → ParserS → Option (PRes × ParserS)
  | 0, _, _ => none
  | m + 1, t, p =>
    match t with
    | .prog acc =>
      if p.curToken.tokType = "EOF" then some (.stmts acc, p)
      else
        match parseF m .stmtT p with
        | some (.stmtO r, p') =>
          parseF m (.prog (acc ++ (match r with | some s => [s] | none => []))) (pNextToken p')
        | _ => none
    | .stmtT =>
      if p.curToken.tokType = "LET" then
        match expectPeek "IDENT" p with
        | (false, p1) => some (.stmtO none, p1)
        | (true, p1) =>
          let name := p1.curToken.literal
          match expectPeek "=" p1 with
          | (false, p2) => some (.stmtO none, p2)
          | (true, p2) =>
            let p3 := pNextToken p2
            match parseF m (.exprT LOWEST_PREC) p3 with
            | some (.exprO (some value), p4) =>
              let p5 := if p4.peekToken.tokType = ";" then pNextToken p4 else p4
              some (.stmtO (some (.letStmt name value)), p5)
            | some (.exprO none, p4) => some (.stmtO none, p4)
            | _ => none
      else if p.curToken.tokType = "RETURN" then
        let p1 := pNextToken p
        match parseF m (.exprT LOWEST_PREC) p1 with
        | some (.exprO (some value), p2) =>
          let p3 := if p2.peekToken.tokType = ";" then pNextToken p2 else p2
          some (.stmtO (some (.returnStmt value)), p3)
        | some (.exprO none, p2) => some (.stmtO none, p2)
        | _ => none
      else
        match parseF m (.exprT LOWEST_PREC) p with
        | some (.exprO (some e), p1) =>
          let p2 := if p1.peekToken.tokType = ";" then pNextToken p1 else p1
          some (.stmtO (some (.exprStmt e)), p2)
        | some (.exprO none, p1) => some (.stmtO none, p1)
        | _ => none
    | .exprT precedence =>
      -- prefix parselet dispatch on the current token type
      if p.curToken.tokType = "IDENT" then
        parseF m (.exprLoop precedence (.identifier p.curToken.literal)) p
      else if p.curToken.tokType = "INT" then
        match goParseIntLit p.curToken.literal with
        | some v => parseF m (.exprLoop precedence (.integerLiteral v)) p
        | none =>
          some (.exprO none,
            ParserS.mk p.lex p.curToken p.peekToken
              (p.errors ++ ["could not parse " ++ p.curToken.literal ++ " as integer"]))
      else if p.curToken.tokType = "STRING" then
        parseF m (.exprLoop precedence (.stringLiteral p.curToken.literal)) p
      else if p.curToken.tokType = "!" || p.curToken.tokType = "-" then
        let op := p.curToken.literal
        let p1 := pNextToken p
        match parseF m (.exprT PREFIX_PREC) p1 with
        | some (.exprO (some right), p2) =>
          parseF m (.exprLoop precedence (.prefixExpr op right)) p2
        | some (.exprO none, p2) => some (.exprO none, p2)
        | _ => none
      else if p.curToken.tokType = "TRUE" || p.curToken.tokType = "FALSE" then
        parseF m (.exprLoop precedence (.booleanLit (p.curToken.tokType = "TRUE"))) p
      else if p.curToken.tokType = "(" then
        let p1 := pNextToken p
        match parseF m (.exprT LOWEST_PREC) p1 with
        | some (.exprO (some e), p2) =>
          (match expectPeek ")" p2 with
          | (false, p3) => some (.exprO none, p3)
          | (true, p3) => parseF m (.exprLoop precedence e) p3)
        | some (.exprO none, p2) => some (.exprO none, p2)
        | _ => none
      else if p.curToken.tokType = "IF" then
        match expectPeek "(" p with
        | (false, p1) => some (.exprO none, p1)
        | (true, p1) =>
          let p2 := pNextToken p1
          match parseF m (.exprT LOWEST_PREC) p2 with
          | some (.exprO (some cond), p3) =>
            (match expectPeek ")" p3 with
            | (false, p4) => some (.exprO none, p4)
            | (true, p4) =>
              match expectPeek "\x7b" p4 with
              | (false, p5) => some (.exprO none, p5)
              | (true, p5) =>
                match parseF m (.blockT []) (pNextToken p5) with
                | some (.stmts cons, p6) =>
                  if p6.peekToken.tokType = "ELSE" then
                    let p7 := pNextToken p6
                    match expectPeek "\x7b" p7 with
                    | (false, p8) => some (.exprO none, p8)
                    | (true, p8) =>
                      match parseF m (.blockT []) (pNextToken p8) with
                      | some (.stmts alt, p9) =>
                        parseF m (.exprLoop precedence (.ifExpr cond cons (some alt))) p9
                      | _ => none
                  else
                    parseF m (.exprLoop precedence (.ifExpr cond cons none)) p6
                | _ => none)
          | some (.exprO none, p3) => some (.exprO none, p3)
          | _ => none
      else if p.curToken.tokType = "FUNCTION" then
        match expectPeek "(" p with
        | (false, p1) => some (.exprO none, p1)
        | (true, p1) =>
          match parseF m .fnParams0 p1 with
          | some (.identsO (some params), p2) =>
            (match expectPeek "\x7b" p2 with
            | (false, p3) => some (.exprO none, p3)
            | (true, p3) =>
              match parseF m (.blockT []) (pNextToken p3) with
              | some (.stmts body, p4) =>
                parseF m (.exprLoop precedence (.functionLiteral params body)) p4
              | _ => none)
          | some (.identsO none, p2) => some (.exprO none, p2)
          | _ => none
      else if p.curToken.tokType = "[" then
        match parseF m (.exprList0 "]") p with
        | some (.exprsO (some els), p1) =>
          parseF m (.exprLoop precedence (.arrayLiteral els)) p1
        | some (.exprsO none, p1) => some (.exprO none, p1)
        | _ => none
      else if p.curToken.tokType = "\x7b" then
        match parseF m (.hashPairsT []) p with
        | some (.pairsO (some ps), p1) =>
          parseF m (.exprLoop precedence (.hashLiteral ps)) p1
        | some (.pairsO none, p1) => some (.exprO none, p1)
        | _ => none
      else
        some (.exprO none, noPrefixParseFnError p)
    | .exprLoop precedence left =>
      -- the while loop of parseExpression, with infix parselet dispatch
      if p.peekToken.tokType = ";" then some (.exprO (some left), p)
      else if precedence < precedenceOf p.peekToken.tokType then
        if p.peekToken.tokType = "+" || p.peekToken.tokType = "-" ||
           p.peekToken.tokType = "/" || p.peekToken.tokType = "*" ||
           p.peekToken.tokType = "==" || p.peekToken.tokType = "!=" ||
           p.peekToken.tokType = "<" || p.peekToken.tokType = ">" then
          let p1 := pNextToken p
          let op := p1.curToken.literal
          let opPrec := precedenceOf p1.curToken.tokType
          let p2 := pNextToken p1
          match parseF m (.exprT opPrec) p2 with
          | some (.exprO (some right), p3) =>
            parseF m (.exprLoop precedence (.infixExpr op left right)) p3
          | some (.exprO none, p3) => some (.exprO none, p3)
          | _ => none
        else if p.peekToken.tokType = "(" then
          let p1 := pNextToken p
          match parseF m (.exprList0 ")") p1 with
          | some (.exprsO (some args), p2) =>
            parseF m (.exprLoop precedence (.callExpr left args)) p2
          | some (.exprsO none, p2) => some (.exprO none, p2)
          | _ => none
        else if p.peekToken.tokType = "[" then
          let p1 := pNextToken (pNextToken p)
          match parseF m (.exprT LOWEST_PREC) p1 with
          | some (.exprO (some idx), p2) =>
            (match expectPeek "]" p2 with
            | (false, p3) => some (.exprO none, p3)
            | (true, p3) => parseF m (.exprLoop precedence (.indexExpr left idx)) p3)
          | some (.exprO none, p2) => some (.exprO none, p2)
          | _ => none
        else some (.exprO (some left), p)
      else some (.exprO (some left), p)
    | .blockT acc =>
      if p.curToken.tokType = "\x7d" || p.curToken.tokType = "EOF" then
        some (.stmts acc, p)
      else
        match parseF m .stmtT p with
        | some (.stmtO r, p') =>
          parseF m (.blockT (acc ++ (match r with | some s => [s] | none => [])))
            (pNextToken p')
        | _ => none
    | .exprList0 endType =>
      if p.peekToken.tokType = endType then
        some (.exprsO (some []), pNextToken p)
      else
        let p1 := pNextToken p
        match parseF m (.exprT LOWEST_PREC) p1 with
        | some (.exprO (some e), p2) => parseF m (.exprListRest endType [e]) p2
        | some (.exprO none, p2) => some (.exprsO none, p2)
        | _ => none
    | .exprListRest endType acc =>
      if p.peekToken.tokType = "," then
        let p1 := pNextToken (pNextToken p)
        match parseF m (.exprT LOWEST_PREC) p1 with
        | some (.exprO (some e), p2) => parseF m (.exprListRest endType (acc ++ [e])) p2
        | some (.exprO none, p2) => some (.exprsO none, p2)
        | _ => none
      else
        match expectPeek endType p with
        | (false, p1) => some (.exprsO none, p1)
        | (true, p1) => some (.exprsO (some acc), p1)
    | .fnParams0 =>
      if p.peekToken.tokType = ")" then
        some (.identsO (some []), pNextToken p)
      else
        let p1 := pNextToken p
        parseF m (.fnParamsRest [p1.curToken.literal]) p1
    | .fnParamsRest acc =>
      if p.peekToken.tokType = "," then
        let p1 := pNextToken (pNextToken p)
        parseF m (.fnParamsRest (acc ++ [p1.curToken.literal])) p1
      else
        match expectPeek ")" p with
        | (false, p1) => some (.identsO none, p1)
        | (true, p1) => some (.identsO (some acc), p1)
    | .hashPairsT acc =>
      if p.peekToken.tokType = "\x7d" then
        match expectPeek "\x7d" p with
        | (false, p1) => some (.pairsO none, p1)
        | (true, p1) => some (.pairsO (some acc), p1)
      else
        let p1 := pNextToken p
        match parseF m (.exprT LOWEST_PREC) p1 with
        | some (.exprO (some key), p2) =>
          (match expectPeek ":" p2 with
          | (false, p3) => some (.pairsO none, p3)
          | (true, p3) =>
            let p4 := pNextToken p3
            match parseF m (.exprT LOWEST_PREC) p4 with
            | some (.exprO (some value), p5) =>
              let acc' := acc ++ [(key, value)]
              if p5.peekToken.tokType = "\x7d" then parseF m (.hashPairsT acc') p5
              else
                (match expectPeek "," p5 with
                | (false, p6) => some (.pairsO none, p6)
                | (true, p6) => parseF m (.hashPairsT acc') p6)
            | some (.exprO none, p5) => some (.pairsO none, p5)
            | _ => none)
        | some (.exprO none, p2) => some (.pairsO none, p2)
        | _ => none

/-- ParseProgram on raw source bytes: build the lexer, construct the
parser, run the statement loop.  Returns the program's statements and
the final parser state (which carries the error list). -/
def parseProgram (fuel : Nat) (input : List Nat) : Option (List Statement × ParserS) :=
  match parseF fuel (.prog []) (parserNew (lexNew input)) with
  | some (.stmts ss, p) => some (ss, p)
  | _ => none

/-- Just the statements of a parse, when it succeeds. -/
def parsedStmts (fuel : Nat) (input : List Nat) : Option (List Statement) :=
  (parseProgram fuel input).map (fun r => r.1)

/-! ## Object system (package object) -/

/-- Go's uint64(v) reinterpretation of an int64 value. -/
def uint64OfInt64 (v : Int) : Nat :=
  (v % (18446744073709551616 : Int)).toNat

/-- Wrap-around of int64 arithmetic (Go `+ - * /` on int64 silently
wrap on overflow). -/
def int64wrap (v : Int) : Int :=
  (v + 9223372036854775808) % 18446744073709551616 - 9223372036854775808

def FNV_OFFSET_BASIS : Nat := 14695981039346656037
def FNV_PRIME : Nat := 1099511628211

/-- FNV-1a 64-bit over a byte sequence, as hash/fnv New64a + Write. -/
def fnv1a64 (bs : List Nat) : Nat :=
  bs.foldl (fun h b => ((h ^^^ b) * FNV_PRIME) % 18446744073709551616)
    FNV_OFFSET_BASIS

/-- UTF-8 bytes of one character, the Go encoding of []byte(s). -/
def utf8Bytes (c : Char) : List Nat :=
  let n := c.toNat
  if n < 128 then [n]
  else if n < 2048 then [192 + n / 64, 128 + n % 64]
  else if n < 65536 then [224 + n / 4096, 128 + (n / 64) % 64, 128 + n % 64]
  else [240 + n / 262144, 128 + (n / 4096) % 64, 128 + (n / 64) % 64, 128 + n % 64]

def stringBytes (s : String) : List Nat :=
  s.data.foldr (fun c acc => utf8Bytes c ++ acc) []

structure HashKey where
  objType : String
  value : Nat
deriving Repr, DecidableEq

def integerHashKey (v : Int) : HashKey :=
  HashKey.mk "INTEGER" (uint64OfInt64 v)

def booleanHashKey (b : Bool) : HashKey :=
  HashKey.mk "BOOLEAN" (if b then 1 else 0)

def stringHashKey (s : String) : HashKey :=
  HashKey.mk "STRING" (fnv1a64 (stringBytes s))

/-- Runtime values.  A Function value stores the body and the index of
its captured environment in the heap; a Builtin is identified by its
name in the registry; a Hash stores the entries of the Go map
`map[HashKey]HashPair` (key value and value value side by side). -/
inductive Object where
  | integer (value : Int)
  | boolean (value : Bool)
  | str (value : String)
  | null
  | returnValue (value : Object)
  | error (message : String)
  | function (parameters : List String) (body : List Statement) (env : Nat)
  | builtin (name : String)
  | array (elements : List Object)
  | hash (pairs : List (HashKey × Object × Object))

/-- Object.Type() of each variant. -/
def objType : Object → String
  | .integer _ => "INTEGER"
  | .boolean _ => "BOOLEAN"
  | .str _ => "STRING"
  | .null => "NULL"
  | .returnValue _ => "RETURN_VALUE"
  | .error _ => "ERROR"
  | .function _ _ _ => "FUNCTION"
  | .builtin _ => "BUILTIN"
  | .array _ => "ARRAY"
  | .hash _ => "HASH"

/-- The Hashable type assertion: Integer, Boolean and String implement
HashKey(), every other variant does not. -/
def hashKeyOf : Object → Option HashKey
  | .integer v => some (integerHashKey v)
  | .boolean b => some (booleanHashKey b)
  | .str s => some (stringHashKey s)
  | _ => none

/-- Go map assignment pairs[k] = p on the entry list: replace an
existing entry for the key, else append. -/
def hashInsert : List (HashKey × Object × Object) → HashKey → Object × Object →
    List (HashKey × Object × Object)
  | [], k, p => [(k, p)]
  | (k', p') :: rest, k, p =>
    if k' = k then (k', p) :: rest else (k', p') :: hashInsert rest k p

def hashLookup : List (HashKey × Object × Object) → HashKey → Option (Object × Object)
  | [], _ => none
  | (k', p') :: rest, k => if k' = k then some p' else hashLookup rest k

/-! ## Environments (object.Environment)

A Frame is one Environment struct; the heap is the collection of all
allocated Environments, addressed by index, with `outer` an index into
the same heap (NewEnclosedEnvironment only ever links to an
already-allocated frame, so `outer` always points to an earlier
index). -/

structure Frame where
  store : List (String × Object)
  outer : Option Nat

abbrev Heap := List Frame

def storeGet : List (String × Object) → String → Option Object
  | [], _ => none
  | (n, v) :: rest, name => if n = name then some v else storeGet rest name

def storeSet : List (String × Object) → String → Object → List (String × Object)
  | [], name, val => [(name, val)]
  | (n, v) :: rest, name, val =>
    if n = name then (n, val) :: rest else (n, v) :: storeSet rest name val

def listModify : List α → Nat → (α → α) → List α
  | [], _, _ => []
  | x :: rest, 0, f => f x :: rest
  | x :: rest, i + 1, f => x :: listModify rest i f

/-- Environment.Get: look in the frame's own store, then recurse on the
outer chain.  The fuel bounds the chain length; since outer pointers
strictly decrease, `heap.length` fuel (what the evaluator passes) is
always enough on heaps built by the evaluator. -/
def envGetFuel : Nat → Heap → Nat → String → Option Object
  | 0, _, _, _ => none
  | fuel + 1, heap, ref, name =>
    match heap.get? ref with
    | none => none
    | some frame =>
      match storeGet frame.store name with
      | some v => some v
      | none =>
        match frame.outer with
        | some o => envGetFuel fuel heap o name
        | none => none

/-- Environment.Set: bind in the frame's own store only. -/
def heapSet (heap : Heap) (ref : Nat) (name : String) (val : Object) : Heap :=
  listModify heap ref (fun f => Frame.mk (storeSet f.store name val) f.outer)

/-- The single top-level environment (object.NewEnvironment). -/
def heap0 : Heap := [Frame.mk [] none]

/-! ## Evaluator helpers (package evaluator) -/

/-- isError: non-nil and of ERROR type (exactly the `error` variant). -/
def isErrorO : Option Object → Bool
  | some (.error _) => true
  | _ => false

def nativeBoolToBooleanObject (b : Bool) : Object := .boolean b

/-- isTruthy compares against the NULL/TRUE/FALSE singletons (the only
Boolean and Null values the evaluator ever creates), everything else is
truthy. -/
def isTruthy : Object → Bool
  | .null => false
  | .boolean true => true
  | .boolean false => false
  | _ => true

/-- The ! operator: TRUE/FALSE/NULL by case, any other value to FALSE. -/
def evalBangOperatorExpression (right : Object) : Object :=
  match right with
  | .boolean true => .boolean false
  | .boolean false => .boolean true
  | .null => .boolean true
  | _ => .boolean false

def newError (msg : String) : Object := .error msg

def evalMinusPrefixOperatorExpression (right : Object) : Object :=
  match right with
  | .integer v => .integer (int64wrap (-v))
  | _ => newError ("unknown operator: -" ++ objType right)

def evalPrefixExpression (operator : String) (right : Object) : Object :=
  if operator = "!" then evalBangOperatorExpression right
  else if operator = "-" then evalMinusPrefixOperatorExpression right
  else newError ("unknown operator: " ++ operator ++ objType right)

/-- Integer infix dispatch.  Both operands are known to be Integers at
the call site (the type assertions cannot fail); `none` is the Go
run-time panic of dividing by zero. -/
def evalIntegerInfixExpression (operator : String) (left right : Object) : Option Object :=
  match left, right with
  | .integer leftVal, .integer rightVal =>
    if operator = "+" then some (.integer (int64wrap (leftVal + rightVal)))
    else if operator = "-" then some (.integer (int64wrap (leftVal - rightVal)))
    else if operator = "*" then some (.integer (int64wrap (leftVal * rightVal)))
    else if operator = "/" then
      if rightVal = 0 then none
      else some (.integer (int64wrap (leftVal.tdiv rightVal)))
    else if operator = "<" then some (nativeBoolToBooleanObject (leftVal < rightVal))
    else if operator = ">" then some (nativeBoolToBooleanObject (rightVal < leftVal))
    else if operator = "==" then some (nativeBoolToBooleanObject (leftVal = rightVal))
    else if operator = "!=" then some (nativeBoolToBooleanObject (leftVal ≠ rightVal))
    else some (newError ("unknown operator: " ++ objType left ++ " " ++ operator ++
      " " ++ objType right))
  | _, _ => none

def evalStringInfixExpression (operator : String) (left right : Object) : Option Object :=
  if operator ≠ "+" then
    some (newError ("unknown operator: " ++ objType left ++ " " ++ operator ++
      " " ++ objType right))
  else
    match left, right with
    | .str l, .str r => some (.str (l ++ r))
    | _, _ => none

/-- Go compares the interface values with == in the generic arm.  The
Boolean and Null operands are the shared singletons, so the pointer
comparison is value comparison for them; any other combination reaching
this arm compares pointers of freshly constructed objects, which are
unequal. -/
def pointerEq (left right : Object) : Bool :=
  match left, right with
  | .boolean a, .boolean b => a = b
  | .null, .null => true
  | _, _ => false

def evalInfixExpression (operator : String) (left right : Object) : Option Object :=
  if objType left = "INTEGER" && objType right = "INTEGER" then
    evalIntegerInfixExpression operator left right
  else if objType left = "STRING" && objType right = "STRING" then
    evalStringInfixExpression operator left right
  else if operator = "==" then some (nativeBoolToBooleanObject (pointerEq left right))
  else if operator = "!=" then some (nativeBoolToBooleanObject (!pointerEq left right))
  else if objType left ≠ objType right then
    some (newError ("type mismatch: " ++ objType left ++ " " ++ operator ++
      " " ++ objType right))
  else
    some (newError ("unknown operator: " ++ objType left ++ " " ++ operator ++
      " " ++ objType right))

def evalArrayIndexExpression (arr : List Object) (idx : Int) : Object :=
  if idx < 0 || (arr.length : Int) - 1 < idx then .null
  else ((arr.get? idx.toNat).map id).getD .null

def evalHashIndexExpression (pairs : List (HashKey × Object × Object))
    (index : Object) : Object :=
  match hashKeyOf index with
  | none => newError ("unusable as hash key: " ++ objType index)
  | some hk =>
    match hashLookup pairs hk with
    | none => .null
    | some p => p.2

def evalIndexExpression (left index : Object) : Object :=
  match left, index with
  | .array els, .integer i => evalArrayIndexExpression els i
  | .hash ps, _ => evalHashIndexExpression ps index
  | _, _ => newError ("index operator not supported: " ++ objType left)

/-- unwrapReturnValue removes exactly one ReturnValue layer. -/
def unwrapReturnValueO : Option Object → Option Object
  | some (.returnValue v) => some v
  | r => r

/-- The builtin registry (len, puts, first, last, rest, push). -/
def builtinsLookup (name : String) : Option Object :=
  if name = "len" || name = "puts" || name = "first" || name = "last" ||
     name = "rest" || name = "push" then some (.builtin name)
  else none

/-- The Fn of each registered builtin.  puts writes to standard output,
which the model does not observe, and returns NULL. -/
def applyBuiltin (name : String) (args : List Object) : Option Object :=
  if name = "len" then
    match args with
    | [a] =>
      match a with
      | .array els => some (.integer (els.length : Int))
      | .str s => some (.integer ((stringBytes s).length : Int))
      | _ => some (newError ("argument to `len` not supported, got " ++ objType a))
    | _ => some (newError ("wrong number of arguments. got=" ++
        toString args.length ++ ", want=1"))
  else if name = "puts" then
    some .null
  else if name = "first" then
    match args with
    | [a] =>
      match a with
      | .array els => some (match els.head? with | some x => x | none => .null)
      | _ => some (newError ("argument to `first` must be ARRAY, got " ++ objType a))
    | _ => some (newError ("wrong number of arguments. got=" ++
        toString args.length ++ ", want=1"))
  else if name = "last" then
    match args with
    | [a] =>
      match a with
      | .array els => some (match els.getLast? with | some x => x | none => .null)
      | _ => some (newError ("argument to `last` must be ARRAY, got " ++ objType a))
    | _ => some (newError ("wrong number of arguments. got=" ++
        toString args.length ++ ", want=1"))
  else if name = "rest" then
    match args with
    | [a] =>
      match a with
      | .array els =>
        some (if 0 < els.length then .array els.tail else .null)
      | _ => some (newError ("argument to `rest` must be ARRAY, got " ++ objType a))
    | _ => some (newError ("wrong number of arguments. got=" ++
        toString args.length ++ ", want=1"))
  else if name = "push" then
    match args with
    | [a, v] =>
      match a with
      | .array els => some (.array (els ++ [v]))
      | _ => some (newError ("argument to `push` must be ARRAY, got " ++ objType a))
    | _ => some (newError ("wrong number of arguments. got=" ++
        toString args.length ++ ", want=2"))
  else none

/-- extendFunctionEnv's binding loop: params are bound positionally;
indexing args beyond its length is the Go out-of-range panic (`none`);
surplus arguments are ignored. -/
def bindParams : List String → List Object → List (String × Object) →
    Option (List (String × Object))
  | [], _, st => some st
  | _ :: _, [], _ => none
  | p :: ps, a :: as, st => bindParams ps as (storeSet st p a)

/-! ## Evaluator (Eval and its helpers folded into one fuel-indexed
recursion)

The tasks mirror the dispatch of Eval: whole program, statement, block
statement list, expression, evalExpressions (argument/element lists),
evalHashLiteral's pair loop, and applyFunction.  Every recursive call
consumes one fuel unit; `none` is a host-level outcome (out of fuel,
or a trap such as division by zero, an impossible type assertion, or
binding more parameters than arguments). -/

inductive EvalTask where
  | program (statements : List Statement)
  | stmt (s : Statement)
  | block (statements : List Statement)
  | expr (e : Expression)
  | exprList (exps : List Expression) (acc : List Object)
  | hashPairs (pairs : List (Expression × Expression))
      (acc : List (HashKey × Object × Object))
  | applyFn (fn : Object) (args : List Object)

inductive EvalRes where
  | obj (value : Option Object)
  | objs (values : List Object)

def evalF : Nat → EvalTask → Nat → Heap → Option (EvalRes × Heap)
  | 0, _, _, _ => none
  | m + 1, t, env, heap =>
    match t with
    | .program [] => some (.obj none, heap)
    | .program (s :: rest) =>
      (match evalF m (.stmt s) env heap with
      | some (.obj r, h) =>
        (match r with
        | some (.returnValue v) => some (.obj (some v), h)
        | some (.error msg) => some (.obj (some (.error msg)), h)
        | _ =>
          match rest with
          | [] => some (.obj r, h)
          | _ => evalF m (.program rest) env h)
      | _ => none)
    | .stmt (.letStmt name value) =>
      (match evalF m (.expr value) env heap with
      | some (.obj (some v), h) =>
        if isErrorO (some v) then some (.obj (some v), h)
        else some (.obj none, heapSet h env name v)
      | _ => none)
    | .stmt (.returnStmt value) =>
      (match evalF m (.expr value) env heap with
      | some (.obj (some v), h) =>
        if isErrorO (some v) then some (.obj (some v), h)
        else some (.obj (some (.returnValue v)), h)
      | _ => none)
    | .stmt (.exprStmt e) => evalF m (.expr e) env heap
    | .stmt (.blockStmt stmts) => evalF m (.block stmts) env heap
    | .block [] => some (.obj none, heap)
    | .block (s :: rest) =>
      (match evalF m (.stmt s) env heap with
      | some (.obj r, h) =>
        (match r with
        | some (.returnValue v) => some (.obj (some (.returnValue v)), h)
        | some (.error msg) => some (.obj (some (.error msg)), h)
        | _ =>
          match rest with
          | [] => some (.obj r, h)
          | _ => evalF m (.block rest) env h)
      | _ => none)
    | .expr (.integerLiteral v) => some (.obj (some (.integer v)), heap)
    | .expr (.stringLiteral s) => some (.obj (some (.str s)), heap)
    | .expr (.booleanLit b) => some (.obj (some (nativeBoolToBooleanObject b)), heap)
    | .expr (.prefixExpr op right) =>
      (match evalF m (.expr right) env heap with
      | some (.obj (some r), h) =>
        if isErrorO (some r) then some (.obj (some r), h)
        else some (.obj (some (evalPrefixExpression op r)), h)
      | _ => none)
    | .expr (.infixExpr op left right) =>
      (match evalF m (.expr left) env heap with
      | some (.obj (some l), h1) =>
        if isErrorO (some l) then some (.obj (some l), h1)
        else
          match evalF m (.expr right) env h1 with
          | some (.obj (some r), h2) =>
            if isErrorO (some r) then some (.obj (some r), h2)
            else
              (match evalInfixExpression op l r with
              | some res => some (.obj (some res), h2)
              | none => none)
          | _ => none
      | _ => none)
    | .expr (.ifExpr cond cons alt) =>
      (match evalF m (.expr cond) env heap with
      | some (.obj (some c), h1) =>
        if isErrorO (some c) then some (.obj (some c), h1)
        else if isTruthy c then evalF m (.block cons) env h1
        else
          match alt with
          | some stmts => evalF m (.block stmts) env h1
          | none => some (.obj (some .null), h1)
      | _ => none)
    | .expr (.identifier name) =>
      (match envGetFuel heap.length heap env name with
      | some v => some (.obj (some v), heap)
      | none =>
        match builtinsLookup name with
        | some b => some (.obj (some b), heap)
        | none =>
          some (.obj (some (newError ("identifier not found: " ++ name))), heap))
    | .expr (.functionLiteral params body) =>
      some (.obj (some (.function params body env)), heap)
    | .expr (.callExpr f args) =>
      (match evalF m (.expr f) env heap with
      | some (.obj (some fv), h1) =>
        if isErrorO (some fv) then some (.obj (some fv), h1)
        else
          match evalF m (.exprList args []) env h1 with
          | some (.objs vals, h2) =>
            if vals.length = 1 && isErrorO vals.head? then
              some (.obj vals.head?, h2)
            else evalF m (.applyFn fv vals) env h2
          | _ => none
      | _ => none)
    | .expr (.arrayLiteral els) =>
      (match evalF m (.exprList els []) env heap with
      | some (.objs vals, h) =>
        if vals.length = 1 && isErrorO vals.head? then
          some (.obj vals.head?, h)
        else some (.obj (some (.array vals)), h)
      | _ => none)
    | .expr (.indexExpr left index) =>
      (match evalF m (.expr left) env heap with
      | some (.obj (some l), h1) =>
        if isErrorO (some l) then some (.obj (some l), h1)
        else
          match evalF m (.expr index) env h1 with
          | some (.obj (some i), h2) =>
            if isErrorO (some i) then some (.obj (some i), h2)
            else some (.obj (some (evalIndexExpression l i)), h2)
          | _ => none
      | _ => none)
    | .expr (.hashLiteral ps) => evalF m (.hashPairs ps []) env heap
    | .exprList [] acc => some (.objs acc, heap)
    | .exprList (e :: rest) acc =>
      (match evalF m (.expr e) env heap with
      | some (.obj (some v), h) =>
        if isErrorO (some v) then some (.objs [v], h)
        else evalF m (.exprList rest (acc ++ [v])) env h
      | _ => none)
    | .hashPairs [] acc => some (.obj (some (.hash acc)), heap)
    | .hashPairs ((k, v) :: rest) acc =>
      (match evalF m (.expr k) env heap with
      | some (.obj (some key), h1) =>
        if isErrorO (some key) then some (.obj (some key), h1)
        else
          match hashKeyOf key with
          | none =>
            some (.obj (some (newError ("unusable as hash key: " ++ objType key))), h1)
          | some hk =>
            match evalF m (.expr v) env h1 with
            | some (.obj (some val), h2) =>
              if isErrorO (some val) then some (.obj (some val), h2)
              else evalF m (.hashPairs rest (hashInsert acc hk (key, val))) env h2
            | _ => none
      | _ => none)
    | .applyFn fn args =>
      match fn with
      | .function params body fenv =>
        (match bindParams params args [] with
        | none => none
        | some st =>
          let newRef := heap.length
          let h1 := heap ++ [Frame.mk st (some fenv)]
          match evalF m (.block body) newRef h1 with
          | some (.obj r, h2) => some (.obj (unwrapReturnValueO r), h2)
          | _ => none)
      | .builtin name =>
        (match applyBuiltin name args with
        | some r => some (.obj (some r), heap)
        | none => none)
      | _ => some (.obj (some (newError ("not a function: " ++ objType fn))), heap)

/-- Evaluate a whole program in the fresh top-level environment and
project the resulting (possibly nil) value. -/
def runValue (fuel : Nat) (stmts : List Statement) : Option (Option Object) :=
  match evalF fuel (.program stmts) 0 heap0 with
  | some (.obj r, _) => some r
  | _ => none

/-! ## Auxiliary definitions for the statements of the theorems -/

/-- The int64 range of Go's Integer payload. -/
def inInt64Range (v : Int) : Prop :=
  -(9223372036854775808 : Int) ≤ v ∧ v < 9223372036854775808

/-- A statement wrapped in k nested blocks, each one the consequence of
an `if (true) { ... }` (the way nested blocks arise in Monkey). -/
def nestReturn : Nat → Statement → Statement
  | 0, s => s
  | k + 1, s => .exprStmt (.ifExpr (.booleanLit true) [nestReturn k s] none)

/-- The relation readChar establishes between the cursor fields: `ch`
mirrors the byte at `position`, with 0 past the end, and `readPosition`
is one ahead.  Holds for every state reachable from `lexNew`. -/
def lexCoherent (l : Lexer) : Prop :=
  l.readPosition = l.position + 1 ∧
  l.ch = (if l.position < l.input.length then l.input.getD l.position 0 else 0)

/-- The lexer has consumed the whole input: the sentinel is set and the
read cursor is past the end. -/
def lexAtEnd (l : Lexer) : Prop :=
  l.ch = 0 ∧ l.input.length ≤ l.readPosition

/-! ## Theorems -/

/-- C4: truthiness is a total classification: exactly `false` and
`null` are falsy; the integer 0, the empty string, the empty array and
the empty hash are truthy; and an if expression whose condition
evaluates to the integer 0 evaluates its consequence branch. -/
theorem c4_truthiness :
    (∀ o : Object, isTruthy o = false ↔ (o = .boolean false ∨ o = .null)) ∧
    isTruthy (.integer 0) = true ∧ isTruthy (.str "") = true ∧
    isTruthy (.array []) = true ∧ isTruthy (.hash []) = true ∧
    (∀ (m env : Nat) (heap : Heap) (cons : List Statement)
        (alt : Option (List Statement)),
      evalF (m + 2) (.expr (.ifExpr (.integerLiteral 0) cons alt)) env heap =
        evalF (m + 1) (.block cons) env heap) := by
  refine ⟨?_, rfl, rfl, rfl, rfl, ?_⟩
  · intro o
    cases o with
    | boolean b => cases b <;> simp [isTruthy]
    | _ => simp [isTruthy]
  · intro m env heap cons alt
    simp [evalF, isErrorO, isTruthy]

/-- C7: on two Integer operands the / operator yields the int64
quotient truncated toward zero (exactly the mathematical `tdiv` except
for the wrap-only corner case MinInt64 / -1); a zero right operand is
not guarded: the expression produces no Monkey value at all — in
particular no Error — which models the Go run-time panic. -/
theorem c7_integer_division :
    (∀ a b : Int, b ≠ 0 →
      evalIntegerInfixExpression "/" (.integer a) (.integer b) =
        some (.integer (int64wrap (a.tdiv b)))) ∧
    (∀ a b : Int, inInt64Range a → inInt64Range b → b ≠ 0 →
      ¬(a = -9223372036854775808 ∧ b = -1) →
      evalIntegerInfixExpression "/" (.integer a) (.integer b) =
        some (.integer (a.tdiv b))) ∧
    (∀ a : Int, evalIntegerInfixExpression "/" (.integer a) (.integer 0) = none) ∧
    (∀ (m env : Nat) (heap : Heap) (a : Int),
      evalF (m + 3)
        (.expr (.infixExpr "/" (.integerLiteral a) (.integerLiteral 0))) env heap =
        none) := by
  have hdiv : ∀ a b : Int, b ≠ 0 →
      evalIntegerInfixExpression "/" (.integer a) (.integer b) =
        some (.integer (int64wrap (a.tdiv b))) := by
    intro a b hb
    simp [evalIntegerInfixExpression, hb]
  refine ⟨hdiv, ?_, ?_, ?_⟩
  · intro a b ha hb hb0 hcorner
    rw [hdiv a b hb0]
    obtain ⟨ha1, ha2⟩ := ha
    obtain ⟨hb1, hb2⟩ := hb
    have hwrap : int64wrap (a.tdiv b) = a.tdiv b := by
      have hq := Int.natAbs_tdiv a b
      by_cases hbone : b = 1
      · subst hbone
        rw [Int.tdiv_one]
        unfold int64wrap
        omega
      by_cases hbmone : b = -1
      · subst hbmone
        have hno : a ≠ -9223372036854775808 := fun h => hcorner ⟨h, rfl⟩
        have habs : (Int.tdiv a (-1)).natAbs = a.natAbs := by rw [hq]; exact Nat.div_one _
        unfold int64wrap
        omega
      have hb2abs : 2 ≤ b.natAbs := by omega
      have hle : a.natAbs / b.natAbs ≤ a.natAbs / 2 :=
        Nat.div_le_div_left hb2abs (by norm_num)
      have hhalf : a.natAbs / 2 ≤ 4611686018427387904 := by omega
      have hbound : (a.tdiv b).natAbs ≤ 4611686018427387904 := by
        rw [hq]; exact le_trans hle hhalf
      unfold int64wrap
      omega
    rw [hwrap]
  · intro a
    simp [evalIntegerInfixExpression]
  · intro m env heap a
    simp [evalF, isErrorO, evalInfixExpression, objType, evalIntegerInfixExpression]

/-- Witness for c7_integer_division: 7 / -2 truncates toward zero to
-3, and 5 / 0 produces no Monkey value. -/
theorem c7_integer_division_witness :
    ((-2 : Int) ≠ 0 ∧
      evalIntegerInfixExpression "/" (.integer 7) (.integer (-2)) =
        some (.integer (-3))) ∧
    evalIntegerInfixExpression "/" (.integer 5) (.integer 0) = none := by
  refine ⟨⟨by omega, ?_⟩, c7_integer_division.2.2.1 5⟩
  have h := c7_integer_division.2.1 7 (-2) ⟨by omega, by omega⟩ ⟨by omega, by omega⟩
    (by omega) (by omega)
  rw [h]
  have ht : (7 : Int).tdiv (-2) = -3 := by decide
  rw [ht]

/-- C9: push(a, v) returns a new Array that is a's element sequence
with v appended, and a's binding still holds the original elements
afterwards (end-to-end: after `let a = [1,2]; let b = push(a,3);`,
`a` is still [1,2] while `b` is [1,2,3]). -/
theorem c9_push_appends_without_mutation :
    (∀ (elems : List Object) (v : Object),
      applyBuiltin "push" [.array elems, v] = some (.array (elems ++ [v]))) ∧
    runValue 30
      [.letStmt "a" (.arrayLiteral [.integerLiteral 1, .integerLiteral 2]),
       .letStmt "b" (.callExpr (.identifier "push")
         [.identifier "a", .integerLiteral 3]),
       .exprStmt (.identifier "a")] =
      some (some (.array [.integer 1, .integer 2])) ∧
    runValue 30
      [.letStmt "a" (.arrayLiteral [.integerLiteral 1, .integerLiteral 2]),
       .letStmt "b" (.callExpr (.identifier "push")
         [.identifier "a", .integerLiteral 3]),
       .exprStmt (.identifier "b")] =
      some (some (.array [.integer 1, .integer 2, .integer 3])) := by
  exact ⟨fun elems v => rfl, rfl, rfl⟩

/-- fnv1a64 always lands below 2^64 (the offset basis does, and every
step reduces modulo 2^64). -/
theorem fnv1a64_lt (bs : List Nat) : fnv1a64 bs < 18446744073709551616 := by
  have step : ∀ (l : List Nat) (h : Nat), h < 18446744073709551616 →
      List.foldl (fun h b => ((h ^^^ b) * FNV_PRIME) % 18446744073709551616) h l <
        18446744073709551616 := by
    intro l
    induction l with
    | nil => intro h hh; simpa using hh
    | cons b rest ih =>
      intro h hh
      exact ih _ (Nat.mod_lt _ (by norm_num))
  exact step _ _ (by norm_num [FNV_OFFSET_BASIS])

/-- C6 counterexample: the String HashKey is a 64-bit FNV-1a hash, a
map from infinitely many strings into finitely many hash values, so two
distinct strings share a HashKey — HashKey equality does not imply
semantic equality of the originating values. -/
theorem c6_hashkey_collision_exists :
    ∃ s₁ s₂ : String, s₁ ≠ s₂ ∧ stringHashKey s₁ = stringHashKey s₂ := by
  obtain ⟨x, y, hne, heq⟩ := Finite.exists_ne_map_eq_of_infinite
    (fun s : String => (⟨fnv1a64 (stringBytes s), fnv1a64_lt _⟩ :
      Fin 18446744073709551616))
  refine ⟨x, y, hne, ?_⟩
  unfold stringHashKey
  have : fnv1a64 (stringBytes x) = fnv1a64 (stringBytes y) := congrArg Fin.val heq
  rw [this]

/-- C6 amended: HashKeys of equal payloads are equal by construction;
the converse holds for Integer values (within the int64 range) and for
Boolean values, and values of different hashable kinds never share a
HashKey because the kind tags differ; only for Strings can two distinct
values collide.  Exactly Integer, Boolean and String are hashable. -/
theorem c6_hashkey_amended :
    (∀ v₁ v₂ : Int, inInt64Range v₁ → inInt64Range v₂ →
      integerHashKey v₁ = integerHashKey v₂ → v₁ = v₂) ∧
    (∀ b₁ b₂ : Bool, booleanHashKey b₁ = booleanHashKey b₂ → b₁ = b₂) ∧
    (∀ (v : Int) (b : Bool), integerHashKey v ≠ booleanHashKey b) ∧
    (∀ (v : Int) (s : String), integerHashKey v ≠ stringHashKey s) ∧
    (∀ (b : Bool) (s : String), booleanHashKey b ≠ stringHashKey s) ∧
    (∀ o : Object, (hashKeyOf o).isSome ↔
      (objType o = "INTEGER" ∨ objType o = "BOOLEAN" ∨ objType o = "STRING")) := by
  refine ⟨?_, ?_, ?_, ?_, ?_, ?_⟩
  · intro v₁ v₂ h₁ h₂ heq
    obtain ⟨ha, hb⟩ := h₁
    obtain ⟨hc, hd⟩ := h₂
    have : uint64OfInt64 v₁ = uint64OfInt64 v₂ := congrArg HashKey.value heq
    unfold uint64OfInt64 at this
    omega
  · intro b₁ b₂ heq
    have := congrArg HashKey.value heq
    cases b₁ <;> cases b₂ <;> simp [booleanHashKey] at this ⊢
  · intro v b heq
    have := congrArg HashKey.objType heq
    simp [integerHashKey, booleanHashKey] at this
  · intro v s heq
    have := congrArg HashKey.objType heq
    simp [integerHashKey, stringHashKey] at this
  · intro b s heq
    have := congrArg HashKey.objType heq
    simp [booleanHashKey, stringHashKey] at this
  · intro o
    cases o <;> simp [hashKeyOf, objType]

/-- Witness for c6_hashkey_amended: applied to the Integer payload -3. -/
theorem c6_hashkey_amended_witness :
    inInt64Range (-3) ∧ (-3 : Int) = -3 := by
  refine ⟨⟨by omega, by omega⟩, ?_⟩
  exact c6_hashkey_amended.1 (-3) (-3) ⟨by omega, by omega⟩ ⟨by omega, by omega⟩ rfl

/-- C5: the precedence levels ascend LOWEST < EQUALS < LESSGREATER <
SUM < PRODUCT < PREFIX < CALL < INDEX; every token type outside the
precedences table gets LOWEST; and the strict less-than comparison in
parseExpression's loop makes equal-precedence operators left
associative: a - b - c parses as ((a - b) - c) while a + b * c parses
as (a + (b * c)). -/
theorem c5_precedence_and_associativity :
    (LOWEST_PREC < EQUALS_PREC ∧ EQUALS_PREC < LESSGREATER_PREC ∧
     LESSGREATER_PREC < SUM_PREC ∧ SUM_PREC < PRODUCT_PREC ∧
     PRODUCT_PREC < PREFIX_PREC ∧ PREFIX_PREC < CALL_PREC ∧
     CALL_PREC < INDEX_PREC) ∧
    (∀ t : String, precedenceOf t = LOWEST_PREC ∨
      t ∈ ["==", "!=", "<", ">", "+", "-", "/", "*", "(", "["]) ∧
    parsedStmts 30 (strToBytes "a - b - c") =
      some [.exprStmt (.infixExpr "-"
        (.infixExpr "-" (.identifier "a") (.identifier "b")) (.identifier "c"))] ∧
    parsedStmts 30 (strToBytes "a + b * c") =
      some [.exprStmt (.infixExpr "+" (.identifier "a")
        (.infixExpr "*" (.identifier "b") (.identifier "c")))] := by
  refine ⟨by decide, ?_, rfl, rfl⟩
  intro t
  simp only [precedenceOf, precedences, lookupAssoc]
  split_ifs with h1 h2 h3 h4 h5 h6 h7 h8 h9 h10 <;> simp_all

/-! Step lemmas exposing single dispatch steps of the evaluator. -/

theorem evalF_exprStmt_step (m : Nat) (e : Expression) (env : Nat) (heap : Heap) :
    evalF (m + 1) (.stmt (.exprStmt e)) env heap = evalF m (.expr e) env heap := rfl

theorem evalF_ifTrue_step (m : Nat) (cons : List Statement)
    (alt : Option (List Statement)) (env : Nat) (heap : Heap) :
    evalF (m + 2) (.expr (.ifExpr (.booleanLit true) cons alt)) env heap =
      evalF (m + 1) (.block cons) env heap := rfl

theorem evalF_block_single_return (m : Nat) (s : Statement) (env : Nat)
    (heap h' : Heap) (v : Object)
    (h : evalF m (.stmt s) env heap = some (.obj (some (.returnValue v)), h')) :
    evalF (m + 1) (.block [s]) env heap =
      some (.obj (some (.returnValue v)), h') := by
  simp only [evalF]
  rw [h]

theorem evalF_program_single_return (m : Nat) (s : Statement) (env : Nat)
    (heap h' : Heap) (v : Object)
    (h : evalF m (.stmt s) env heap = some (.obj (some (.returnValue v)), h')) :
    evalF (m + 1) (.program [s]) env heap = some (.obj (some v), h') := by
  simp only [evalF]
  rw [h]

theorem evalF_program_single_integer (m : Nat) (s : Statement) (env : Nat)
    (heap h' : Heap) (n : Int)
    (h : evalF m (.stmt s) env heap = some (.obj (some (.integer n)), h')) :
    evalF (m + 1) (.program [s]) env heap = some (.obj (some (.integer n)), h') := by
  simp only [evalF]
  rw [h]

theorem evalF_call_fnLit_noargs_step (m : Nat) (body : List Statement)
    (env : Nat) (heap : Heap) :
    evalF (m + 2) (.expr (.callExpr (.functionLiteral [] body) [])) env heap =
      evalF (m + 1) (.applyFn (.function [] body env) []) env heap := rfl

theorem evalF_apply_unwraps_return (m : Nat) (body : List Statement)
    (fenv env : Nat) (heap h' : Heap) (v : Object)
    (h : evalF m (.block body) heap.length (heap ++ [Frame.mk [] (some fenv)]) =
      some (.obj (some (.returnValue v)), h')) :
    evalF (m + 1) (.applyFn (.function [] body fenv) []) env heap =
      some (.obj (some v), h') := by
  simp only [evalF, bindParams]
  rw [h]
  rfl

/-- Evaluating `return n` under k levels of `if (true) { ... }` blocks
produces the ReturnValue wrapper intact: each level costs exactly three
fuel units and passes the wrapper through unchanged. -/
theorem evalF_nestReturn (n : Int) :
    ∀ (k f env : Nat) (heap : Heap),
      evalF (3 * k + (f + 2))
          (.stmt (nestReturn k (.returnStmt (.integerLiteral n)))) env heap =
        some (.obj (some (.returnValue (.integer n))), heap) := by
  intro k
  induction k with
  | zero =>
    intro f env heap
    rw [show 3 * 0 + (f + 2) = f + 2 from by ring]
    rfl
  | succ k ih =>
    intro f env heap
    rw [show 3 * (k + 1) + (f + 2) = 3 * k + (f + 5) from by ring]
    simp only [nestReturn]
    rw [show (3 * k + (f + 5) : Nat) = (3 * k + (f + 4)) + 1 from rfl,
      evalF_exprStmt_step]
    rw [show (3 * k + (f + 4) : Nat) = (3 * k + (f + 2)) + 2 from rfl,
      evalF_ifTrue_step]
    exact evalF_block_single_return _ _ _ _ _ _ (ih f env heap)

/-- C1: a ReturnValue wrapper produced by `return n` travels outward
through every enclosing block unchanged (first conjunct), and is
unwrapped exactly once: at the Program root a top-level return — even
under k nested blocks — yields the plain value as the program result
(second conjunct), and calling a function whose body nests the return
under k blocks yields the plain value to the caller (third conjunct,
where the heap has grown by exactly the call's environment frame). -/
theorem c1_return_unwrapped_once :
    ∀ (k f env : Nat) (n : Int) (heap : Heap),
      (evalF (3 * k + (f + 2))
          (.stmt (nestReturn k (.returnStmt (.integerLiteral n)))) env heap =
        some (.obj (some (.returnValue (.integer n))), heap)) ∧
      (evalF (3 * k + (f + 3))
          (.program [nestReturn k (.returnStmt (.integerLiteral n))]) env heap =
        some (.obj (some (.integer n)), heap)) ∧
      (evalF (3 * k + (f + 7))
          (.program [.exprStmt (.callExpr
            (.functionLiteral [] [nestReturn k (.returnStmt (.integerLiteral n))])
            [])]) env heap =
        some (.obj (some (.integer n)), heap ++ [Frame.mk [] (some env)])) := by
  intro k f env n heap
  refine ⟨evalF_nestReturn n k f env heap, ?_, ?_⟩
  · exact evalF_program_single_return _ _ _ _ _ _ (evalF_nestReturn n k f env heap)
  · have hbody : evalF ((3 * k + (f + 2)) + 1)
        (.block [nestReturn k (.returnStmt (.integerLiteral n))])
        heap.length (heap ++ [Frame.mk [] (some env)]) =
        some (.obj (some (.returnValue (.integer n))),
          heap ++ [Frame.mk [] (some env)]) :=
      evalF_block_single_return _ _ _ _ _ _
        (evalF_nestReturn n k f heap.length (heap ++ [Frame.mk [] (some env)]))
    have happly := evalF_apply_unwraps_return (3 * k + (f + 3)) _ env env heap _ _ hbody
    have hcall : evalF (3 * k + (f + 5))
        (.expr (.callExpr
          (.functionLiteral [] [nestReturn k (.returnStmt (.integerLiteral n))]) []))
        env heap =
        some (.obj (some (.integer n)), heap ++ [Frame.mk [] (some env)]) := by
      rw [show (3 * k + (f + 5) : Nat) = (3 * k + (f + 3)) + 2 from rfl,
        evalF_call_fnLit_noargs_step]
      exact happly
    have hstmt : evalF (3 * k + (f + 6))
        (.stmt (.exprStmt (.callExpr
          (.functionLiteral [] [nestReturn k (.returnStmt (.integerLiteral n))]) [])))
        env heap =
        some (.obj (some (.integer n)), heap ++ [Frame.mk [] (some env)]) := by
      rw [show (3 * k + (f + 6) : Nat) = (3 * k + (f + 5)) + 1 from rfl,
        evalF_exprStmt_step]
      exact hcall
    exact evalF_program_single_integer _ _ _ _ _ _ hstmt

/-- Splicing lemma for evalExpressions: after a clean prefix `xs`
(whose values contain no Error), an element `e` that evaluates to an
Error makes the whole list evaluate to just that Error — whatever
follows (`ys`) is never evaluated, and the prefix values are
discarded. -/
theorem evalF_exprList_error_splice :
    ∀ (xs : List Expression) (m env : Nat) (heap : Heap) (acc vals : List Object)
      (h1 : Heap),
      evalF m (.exprList xs acc) env heap = some (.objs vals, h1) →
      vals.length = acc.length + xs.length →
      (∀ v ∈ vals, isErrorO (some v) = false) →
      ∀ (e : Expression) (ys : List Expression) (errObj : Object) (h2 : Heap),
        evalF (m - (xs.length + 1)) (.expr e) env h1 =
          some (.obj (some errObj), h2) →
        isErrorO (some errObj) = true →
        evalF m (.exprList (xs ++ e :: ys) acc) env heap =
          some (.objs [errObj], h2) := by
  intro xs
  induction xs with
  | nil =>
    intro m env heap acc vals h1 hrun hlen hclean e ys errObj h2 he herr
    match m with
    | 0 => exact absurd hrun (by simp [evalF])
    | m' + 1 =>
      simp only [evalF, Option.some.injEq, Prod.mk.injEq, EvalRes.objs.injEq]
        at hrun
      obtain ⟨hveq, hheq⟩ := hrun
      subst hveq
      subst hheq
      rw [show m' + 1 - (List.length ([] : List Expression) + 1) = m'
        from by simp] at he
      simp only [List.nil_append, evalF, he, herr]
      simp
  | cons x xs' ih =>
    intro m env heap acc vals h1 hrun hlen hclean e ys errObj h2 he herr
    match m with
    | 0 => exact absurd hrun (by simp [evalF])
    | m' + 1 =>
      simp only [evalF] at hrun
      match hx : evalF m' (.expr x) env heap with
      | none => rw [hx] at hrun; exact absurd hrun (by simp)
      | some (.obj none, h0) => rw [hx] at hrun; exact absurd hrun (by simp)
      | some (.objs w, h0) => rw [hx] at hrun; exact absurd hrun (by simp)
      | some (.obj (some v), h0) =>
        simp only [hx] at hrun
        by_cases hverr : isErrorO (some v) = true
        · rw [if_pos hverr] at hrun
          have hvals : vals = [v] := by
            simp only [Option.some.injEq, Prod.mk.injEq, EvalRes.objs.injEq]
              at hrun
            exact hrun.1.symm
          have : isErrorO (some v) = false := hclean v (by simp [hvals])
          rw [this] at hverr
          exact absurd hverr (by simp)
        · rw [if_neg hverr] at hrun
          have he' : evalF (m' - (xs'.length + 1)) (.expr e) env h1 =
              some (.obj (some errObj), h2) := by
            rw [show m' + 1 - ((x :: xs').length + 1) = m' - (xs'.length + 1)
              from by simp only [List.length_cons]; omega] at he
            exact he
          have hlen' : vals.length = (acc ++ [v]).length + xs'.length := by
            simp at hlen ⊢
            omega
          have hres := ih m' env h0 (acc ++ [v]) vals h1 hrun hlen' hclean e ys
            errObj h2 he' herr
          simp only [List.cons_append, evalF, hx]
          rw [if_neg hverr]
          exact hres

/-- C3: call-argument lists and array-literal element lists evaluate
left-to-right; the first Error stops the list (whatever follows is not
evaluated — the conclusion does not depend on `ys`, which may even be a
trapping expression), the previously computed values are discarded, and
that single Error becomes the value of the whole call or array
expression.  The final conjunct shows it concretely: an array literal
whose first element errors and whose second would trap (1/0) evaluates
to the first element's Error. -/
theorem c3_list_error_short_circuit :
    (∀ (xs : List Expression) (m env : Nat) (heap : Heap)
        (acc vals : List Object) (h1 : Heap),
      evalF m (.exprList xs acc) env heap = some (.objs vals, h1) →
      vals.length = acc.length + xs.length →
      (∀ v ∈ vals, isErrorO (some v) = false) →
      ∀ (e : Expression) (ys : List Expression) (errObj : Object) (h2 : Heap),
        evalF (m - (xs.length + 1)) (.expr e) env h1 =
          some (.obj (some errObj), h2) →
        isErrorO (some errObj) = true →
        evalF m (.exprList (xs ++ e :: ys) acc) env heap =
          some (.objs [errObj], h2)) ∧
    (∀ (m env : Nat) (heap h0 h1 : Heap) (fexp : Expression)
        (args : List Expression) (fv errObj : Object),
      evalF m (.expr fexp) env heap = some (.obj (some fv), h0) →
      isErrorO (some fv) = false →
      evalF m (.exprList args []) env h0 = some (.objs [errObj], h1) →
      isErrorO (some errObj) = true →
      evalF (m + 1) (.expr (.callExpr fexp args)) env heap =
        some (.obj (some errObj), h1)) ∧
    (∀ (m env : Nat) (heap h1 : Heap) (els : List Expression) (errObj : Object),
      evalF m (.exprList els []) env heap = some (.objs [errObj], h1) →
      isErrorO (some errObj) = true →
      evalF (m + 1) (.expr (.arrayLiteral els)) env heap =
        some (.obj (some errObj), h1)) ∧
    runValue 20 [.exprStmt (.arrayLiteral
      [.infixExpr "+" (.booleanLit true) (.integerLiteral 1),
       .infixExpr "/" (.integerLiteral 1) (.integerLiteral 0)])] =
      some (some (.error "type mismatch: BOOLEAN + INTEGER")) := by
  refine ⟨evalF_exprList_error_splice, ?_, ?_, rfl⟩
  · intro m env heap h0 h1 fexp args fv errObj hf hferr hargs herr
    simp only [evalF, hf, hferr]
    simp only [hargs]
    simp [herr]
  · intro m env heap h1 els errObj hels herr
    simp only [evalF, hels]
    simp [herr]

/-- Witness for c3_list_error_short_circuit: a one-element list whose
element evaluates to a type-mismatch Error makes the enclosing array
literal evaluate to that Error. -/
theorem c3_list_error_short_circuit_witness :
    (evalF 5 (.exprList [.infixExpr "+" (.booleanLit true) (.integerLiteral 1)] [])
        0 heap0 =
      some (.objs [.error "type mismatch: BOOLEAN + INTEGER"], heap0)) ∧
    (isErrorO (some (.error "type mismatch: BOOLEAN + INTEGER")) = true) ∧
    (evalF 6 (.expr (.arrayLiteral
        [.infixExpr "+" (.booleanLit true) (.integerLiteral 1)])) 0 heap0 =
      some (.obj (some (.error "type mismatch: BOOLEAN + INTEGER")), heap0)) :=
  ⟨rfl, rfl, c3_list_error_short_circuit.2.2.1 5 0 heap0 heap0
    [.infixExpr "+" (.booleanLit true) (.integerLiteral 1)]
    (.error "type mismatch: BOOLEAN + INTEGER") rfl rfl⟩

/-- C2 counterexample: the parsed hash node keeps its pairs in a Go map
(ast.go: `Pairs map[Expression]Expression`), and evalHashLiteral
iterates that map with `range`, whose order is unspecified.  For the
literal with entries {true+1: 0, "a"+1: 0} both entry orders are
admissible enumerations of the same map; they evaluate to different
Errors, so the result is not determined to be the source-order-first
pair's Error. -/
theorem c2_hash_order_counterexample :
    (runValue 20 [.exprStmt (.hashLiteral
       [(.infixExpr "+" (.booleanLit true) (.integerLiteral 1), .integerLiteral 0),
        (.infixExpr "+" (.stringLiteral "a") (.integerLiteral 1),
          .integerLiteral 0)])] =
      some (some (.error "type mismatch: BOOLEAN + INTEGER"))) ∧
    (runValue 20 [.exprStmt (.hashLiteral
       [(.infixExpr "+" (.stringLiteral "a") (.integerLiteral 1), .integerLiteral 0),
        (.infixExpr "+" (.booleanLit true) (.integerLiteral 1),
          .integerLiteral 0)])] =
      some (some (.error "type mismatch: STRING + INTEGER"))) ∧
    "type mismatch: BOOLEAN + INTEGER" ≠ "type mismatch: STRING + INTEGER" :=
  ⟨rfl, rfl, by decide⟩

/-- C2 amended: for whichever order the hash pairs are iterated, each
pair is processed key first — a key Error is returned before the pair's
value or any later pair is touched (conclusions do not depend on `v` or
`rest`), a clean unhashable key yields the unusable-as-hash-key Error
also before the value, a value Error is returned next, and a fully
clean pair is inserted before moving to the remaining pairs; an empty
remainder yields the accumulated Hash. -/
theorem c2_hash_pair_evaluation_amended :
    (∀ (m env : Nat) (heap h1 : Heap) (k v : Expression)
        (rest : List (Expression × Expression))
        (acc : List (HashKey × Object × Object)) (errObj : Object),
      evalF m (.expr k) env heap = some (.obj (some errObj), h1) →
      isErrorO (some errObj) = true →
      evalF (m + 1) (.hashPairs ((k, v) :: rest) acc) env heap =
        some (.obj (some errObj), h1)) ∧
    (∀ (m env : Nat) (heap h1 : Heap) (k v : Expression)
        (rest : List (Expression × Expression))
        (acc : List (HashKey × Object × Object)) (kv : Object),
      evalF m (.expr k) env heap = some (.obj (some kv), h1) →
      isErrorO (some kv) = false →
      hashKeyOf kv = none →
      evalF (m + 1) (.hashPairs ((k, v) :: rest) acc) env heap =
        some (.obj (some (.error ("unusable as hash key: " ++ objType kv))), h1)) ∧
    (∀ (m env : Nat) (heap h1 h2 : Heap) (k v : Expression)
        (rest : List (Expression × Expression))
        (acc : List (HashKey × Object × Object)) (kv errObj : Object)
        (hk : HashKey),
      evalF m (.expr k) env heap = some (.obj (some kv), h1) →
      isErrorO (some kv) = false →
      hashKeyOf kv = some hk →
      evalF m (.expr v) env h1 = some (.obj (some errObj), h2) →
      isErrorO (some errObj) = true →
      evalF (m + 1) (.hashPairs ((k, v) :: rest) acc) env heap =
        some (.obj (some errObj), h2)) ∧
    (∀ (m env : Nat) (heap h1 h2 : Heap) (k v : Expression)
        (rest : List (Expression × Expression))
        (acc : List (HashKey × Object × Object)) (kv vv : Object) (hk : HashKey),
      evalF m (.expr k) env heap = some (.obj (some kv), h1) →
      isErrorO (some kv) = false →
      hashKeyOf kv = some hk →
      evalF m (.expr v) env h1 = some (.obj (some vv), h2) →
      isErrorO (some vv) = false →
      evalF (m + 1) (.hashPairs ((k, v) :: rest) acc) env heap =
        evalF m (.hashPairs rest (hashInsert acc hk (kv, vv))) env h2) ∧
    (∀ (m env : Nat) (heap : Heap) (acc : List (HashKey × Object × Object)),
      evalF (m + 1) (.hashPairs [] acc) env heap =
        some (.obj (some (.hash acc)), heap)) ∧
    (∀ (m env : Nat) (heap : Heap) (ps : List (Expression × Expression)),
      evalF (m + 1) (.expr (.hashLiteral ps)) env heap =
        evalF m (.hashPairs ps []) env heap) := by
  refine ⟨?_, ?_, ?_, ?_, fun m env heap acc => rfl, fun m env heap ps => rfl⟩
  · intro m env heap h1 k v rest acc errObj hk herr
    simp only [evalF, hk]
    simp [herr]
  · intro m env heap h1 k v rest acc kv hk hclean hnoth
    simp only [evalF, hk]
    simp [hclean, hnoth, newError]
  · intro m env heap h1 h2 k v rest acc kv errObj hkk hk hclean hhk hv herr
    simp only [evalF, hk]
    simp [hclean, hhk, hv, herr]
  · intro m env heap h1 h2 k v rest acc kv vv hkk hk hclean hhk hv hvclean
    simp only [evalF, hk]
    simp [hclean, hhk, hv, hvclean]

/-- Witness for c2_hash_pair_evaluation_amended: a pair whose key
errors yields the key's Error even though the pair's value is the
trapping 1/0. -/
theorem c2_hash_pair_evaluation_amended_witness :
    (evalF 4 (.expr (.infixExpr "+" (.booleanLit true) (.integerLiteral 1)))
        0 heap0 =
      some (.obj (some (.error "type mismatch: BOOLEAN + INTEGER")), heap0)) ∧
    (evalF 5 (.hashPairs
        [(.infixExpr "+" (.booleanLit true) (.integerLiteral 1),
          .infixExpr "/" (.integerLiteral 1) (.integerLiteral 0))] []) 0 heap0 =
      some (.obj (some (.error "type mismatch: BOOLEAN + INTEGER")), heap0)) :=
  ⟨rfl, c2_hash_pair_evaluation_amended.1 4 0 heap0 heap0
    (.infixExpr "+" (.booleanLit true) (.integerLiteral 1))
    (.infixExpr "/" (.integerLiteral 1) (.integerLiteral 0)) [] []
    (.error "type mismatch: BOOLEAN + INTEGER") rfl rfl⟩

/-- C8: identifier resolution: a hit anywhere along the environment
chain wins (conjunct 1 holds for every name, including builtin names —
user bindings shadow builtins; conjunct 5 shows `let len = 1; len`
yields 1); a frame that lacks the name defers to its parent (conjunct
2); only on an environment miss is the builtin table consulted
(conjuncts 3 and 6); and when both miss, the result is the Error
`identifier not found: <name>` (conjunct 4). -/
theorem c8_identifier_resolution :
    (∀ (m env : Nat) (heap : Heap) (name : String) (v : Object),
      envGetFuel heap.length heap env name = some v →
      evalF (m + 1) (.expr (.identifier name)) env heap =
        some (.obj (some v), heap)) ∧
    (∀ (fuel : Nat) (heap : Heap) (ref : Nat) (name : String) (frame : Frame)
        (o : Nat),
      heap.get? ref = some frame →
      storeGet frame.store name = none →
      frame.outer = some o →
      envGetFuel (fuel + 1) heap ref name = envGetFuel fuel heap o name) ∧
    (∀ (m env : Nat) (heap : Heap) (name : String) (b : Object),
      envGetFuel heap.length heap env name = none →
      builtinsLookup name = some b →
      evalF (m + 1) (.expr (.identifier name)) env heap =
        some (.obj (some b), heap)) ∧
    (∀ (m env : Nat) (heap : Heap) (name : String),
      envGetFuel heap.length heap env name = none →
      builtinsLookup name = none →
      evalF (m + 1) (.expr (.identifier name)) env heap =
        some (.obj (some (.error ("identifier not found: " ++ name))), heap)) ∧
    (runValue 20 [.letStmt "len" (.integerLiteral 1),
        .exprStmt (.identifier "len")] = some (some (.integer 1))) ∧
    (runValue 20 [.exprStmt (.identifier "len")] =
      some (some (.builtin "len"))) := by
  refine ⟨?_, ?_, ?_, ?_, rfl, rfl⟩
  · intro m env heap name v h
    simp only [evalF, h]
  · intro fuel heap ref name frame o hget hstore houter
    simp only [envGetFuel, hget, hstore, houter]
  · intro m env heap name b henv hb
    simp only [evalF, henv, hb]
  · intro m env heap name henv hb
    simp only [evalF, henv, hb, newError]

/-- Witness for c8_identifier_resolution: a binding of the builtin name
`len` in the current frame shadows the builtin; an empty enclosed frame
defers to its parent; an unbound name produces the identifier-not-found
Error. -/
theorem c8_identifier_resolution_witness :
    (envGetFuel 1 [Frame.mk [("len", .integer 1)] none] 0 "len" =
        some (.integer 1) ∧
      evalF 3 (.expr (.identifier "len")) 0 [Frame.mk [("len", .integer 1)] none] =
        some (.obj (some (.integer 1)), [Frame.mk [("len", .integer 1)] none])) ∧
    (envGetFuel 2 [Frame.mk [("x", .integer 7)] none, Frame.mk [] (some 0)] 1 "x" =
      envGetFuel 1 [Frame.mk [("x", .integer 7)] none, Frame.mk [] (some 0)] 0 "x") ∧
    (evalF 3 (.expr (.identifier "nosuch")) 0 heap0 =
      some (.obj (some (.error "identifier not found: nosuch")), heap0)) :=
  ⟨⟨rfl, c8_identifier_resolution.1 2 0 [Frame.mk [("len", .integer 1)] none]
      "len" (.integer 1) rfl⟩,
    c8_identifier_resolution.2.1 1
      [Frame.mk [("x", .integer 7)] none, Frame.mk [] (some 0)] 1 "x"
      (Frame.mk [] (some 0)) 0 rfl rfl rfl,
    c8_identifier_resolution.2.2.2.1 2 0 heap0 "nosuch" rfl rfl⟩

/-! Helper lemmas about the lexer's cursor discipline. -/

theorem lexCoherent_readChar (l : Lexer) : lexCoherent (lexReadChar l) := by
  unfold lexCoherent lexReadChar
  constructor
  · rfl
  · simp only []
    split_ifs with h1 h2 h3 <;> first | rfl | omega

theorem lexSkipWSAux_coherent (n : Nat) :
    ∀ l : Lexer, lexCoherent l → lexCoherent (lexSkipWSAux n l) := by
  induction n with
  | zero => intro l h; exact h
  | succ n ih =>
    intro l h
    unfold lexSkipWSAux
    split_ifs with hws
    · exact ih _ (lexCoherent_readChar l)
    · exact h

theorem lexSkipWSAux_input (n : Nat) :
    ∀ l : Lexer, (lexSkipWSAux n l).input = l.input := by
  induction n with
  | zero => intro l; rfl
  | succ n ih =>
    intro l
    unfold lexSkipWSAux
    split_ifs with hws
    · rw [ih (lexReadChar l)]; rfl
    · rfl

theorem lexSkipWhitespace_coherent (l : Lexer) (h : lexCoherent l) :
    lexCoherent (lexSkipWhitespace l) :=
  lexSkipWSAux_coherent _ l h

theorem lexSkipWhitespace_input (l : Lexer) :
    (lexSkipWhitespace l).input = l.input :=
  lexSkipWSAux_input _ l

theorem lexSkipWhitespace_of_ch_zero (l : Lexer) (h : l.ch = 0) :
    lexSkipWhitespace l = l := by
  unfold lexSkipWhitespace
  rw [show l.input.length + 2 = (l.input.length + 1) + 1 from rfl]
  unfold lexSkipWSAux
  rw [h]
  rfl

theorem LookupIdent_ne_eof (s : String) : LookupIdent s ≠ "EOF" := by
  unfold LookupIdent
  split_ifs <;> simp

theorem lexAtEnd_readChar (l : Lexer) (h : l.input.length ≤ l.readPosition) :
    lexAtEnd (lexReadChar l) := by
  unfold lexAtEnd lexReadChar
  refine ⟨?_, ?_⟩
  · simp only []
    rw [if_pos h]
  · simp only []
    omega

theorem lexDispatch_ch_zero (l : Lexer) (h : l.ch = 0) :
    lexDispatch l = (Token.mk "EOF" "", lexReadChar l) := by
  unfold lexDispatch
  rw [h]
  rfl

theorem lexDispatch_eof_ch (l : Lexer)
    (htok : (lexDispatch l).1.tokType = "EOF") : l.ch = 0 := by
  unfold lexDispatch at htok
  rcases hs1 : lexReadString l with ⟨slit, sl⟩
  rw [hs1] at htok
  rcases hs2 : lexReadIdentifier l with ⟨ilit, il⟩
  rw [hs2] at htok
  rcases hs3 : lexReadNumber l with ⟨nlit, nl⟩
  rw [hs3] at htok
  by_cases c1 : l.ch = 61
  · rw [if_pos c1] at htok
    by_cases dc1 : lexPeekChar l = 61
    · rw [if_pos dc1] at htok; simp at htok
    · rw [if_neg dc1] at htok; simp at htok
  rw [if_neg c1] at htok
  by_cases c2 : l.ch = 43
  · rw [if_pos c2] at htok; simp at htok
  rw [if_neg c2] at htok
  by_cases c3 : l.ch = 45
  · rw [if_pos c3] at htok; simp at htok
  rw [if_neg c3] at htok
  by_cases c4 : l.ch = 33
  · rw [if_pos c4] at htok
    by_cases dc4 : lexPeekChar l = 61
    · rw [if_pos dc4] at htok; simp at htok
    · rw [if_neg dc4] at htok; simp at htok
  rw [if_neg c4] at htok
  by_cases c5 : l.ch = 47
  · rw [if_pos c5] at htok; simp at htok
  rw [if_neg c5] at htok
  by_cases c6 : l.ch = 42
  · rw [if_pos c6] at htok; simp at htok
  rw [if_neg c6] at htok
  by_cases c7 : l.ch = 60
  · rw [if_pos c7] at htok; simp at htok
  rw [if_neg c7] at htok
  by_cases c8 : l.ch = 62
  · rw [if_pos c8] at htok; simp at htok
  rw [if_neg c8] at htok
  by_cases c9 : l.ch = 59
  · rw [if_pos c9] at htok; simp at htok
  rw [if_neg c9] at htok
  by_cases c10 : l.ch = 58
  · rw [if_pos c10] at htok; simp at htok
  rw [if_neg c10] at htok
  by_cases c11 : l.ch = 44
  · rw [if_pos c11] at htok; simp at htok
  rw [if_neg c11] at htok
  by_cases c12 : l.ch = 123
  · rw [if_pos c12] at htok; simp at htok
  rw [if_neg c12] at htok
  by_cases c13 : l.ch = 125
  · rw [if_pos c13] at htok; simp at htok
  rw [if_neg c13] at htok
  by_cases c14 : l.ch = 40
  · rw [if_pos c14] at htok; simp at htok
  rw [if_neg c14] at htok
  by_cases c15 : l.ch = 41
  · rw [if_pos c15] at htok; simp at htok
  rw [if_neg c15] at htok
  by_cases c16 : l.ch = 34
  · rw [if_pos c16] at htok; simp at htok
  rw [if_neg c16] at htok
  by_cases c17 : l.ch = 91
  · rw [if_pos c17] at htok; simp at htok
  rw [if_neg c17] at htok
  by_cases c18 : l.ch = 93
  · rw [if_pos c18] at htok; simp at htok
  rw [if_neg c18] at htok
  by_cases c19 : l.ch = 0
  · exact c19
  rw [if_neg c19] at htok
  by_cases c20 : isLetterB l.ch = true
  · rw [if_pos c20] at htok
    simp at htok
    exact absurd htok (LookupIdent_ne_eof _)
  rw [if_neg c20] at htok
  by_cases c21 : isDigitB l.ch = true
  · rw [if_pos c21] at htok; simp at htok
  rw [if_neg c21] at htok
  simp at htok

theorem lexNextToken_atEnd (l : Lexer) (h : lexAtEnd l) :
    lexNextToken l = (Token.mk "EOF" "", lexReadChar l) ∧
      lexAtEnd (lexNextToken l).2 := by
  obtain ⟨hch, hend⟩ := h
  have heq : lexNextToken l = (Token.mk "EOF" "", lexReadChar l) := by
    unfold lexNextToken
    rw [lexSkipWhitespace_of_ch_zero l hch]
    exact lexDispatch_ch_zero l hch
  refine ⟨heq, ?_⟩
  rw [heq]
  exact lexAtEnd_readChar l hend

theorem lexNth_atEnd (k : Nat) :
    ∀ l : Lexer, lexAtEnd l → (lexNth k l).tokType = "EOF" := by
  induction k with
  | zero =>
    intro l h
    show (lexNextToken l).1.tokType = "EOF"
    rw [(lexNextToken_atEnd l h).1]
  | succ k ih =>
    intro l h
    show (lexNth k (lexNextToken l).2).tokType = "EOF"
    exact ih _ (lexNextToken_atEnd l h).2

theorem lexNextToken_eof_atEnd (l : Lexer) (hnul : 0 ∉ l.input)
    (hcoh : lexCoherent l) (htok : (lexNextToken l).1.tokType = "EOF") :
    lexAtEnd (lexNextToken l).2 := by
  have hcoh' : lexCoherent (lexSkipWhitespace l) := lexSkipWhitespace_coherent l hcoh
  have hinput : (lexSkipWhitespace l).input = l.input := lexSkipWhitespace_input l
  have hch : (lexSkipWhitespace l).ch = 0 := lexDispatch_eof_ch _ htok
  obtain ⟨hrp, hchdef⟩ := hcoh'
  by_cases hpos : (lexSkipWhitespace l).position < (lexSkipWhitespace l).input.length
  · exfalso
    rw [if_pos hpos] at hchdef
    apply hnul
    rw [← hinput]
    have hmem : (lexSkipWhitespace l).input.getD (lexSkipWhitespace l).position 0 ∈
        (lexSkipWhitespace l).input := by
      rw [List.getD_eq_getD_get?, List.get?_eq_get hpos]
      exact List.get_mem _ _ _
    rw [hchdef] at hch
    rw [← hch]
    exact hmem
  · push_neg at hpos
    show lexAtEnd (lexDispatch (lexSkipWhitespace l)).2
    rw [lexDispatch_ch_zero _ hch]
    exact lexAtEnd_readChar _ (by omega)

/-- C10 counterexample: end-of-input is not an absorbing state for
every input string.  For the input "\x00a" (bytes [0, 97]) the NUL byte
makes readChar set the 0 sentinel mid-input, so the first NextToken
call returns the EOF token and the second returns an IDENT token. -/
theorem c10_eof_not_absorbing_counterexample :
    (lexNth 0 (lexNew [0, 97])).tokType = "EOF" ∧
    (lexNth 1 (lexNew [0, 97])).tokType = "IDENT" ∧
    ("IDENT" : String) ≠ "EOF" :=
  ⟨rfl, rfl, by decide⟩

/-- C10 amended: for a lexer whose cursor has passed the end of the
input, NextToken returns the EOF token and preserves that state, so
every further call returns EOF (first two conjuncts); and for every
coherent lexer state over an input that contains no NUL byte, once
NextToken has returned an EOF token every subsequent call returns EOF
again (third conjunct) — only a NUL byte in the input can produce the
spurious mid-input EOF of the counterexample. -/
theorem c10_eof_absorbing_amended :
    (∀ l : Lexer, lexAtEnd l →
      lexNextToken l = (Token.mk "EOF" "", lexReadChar l) ∧
        lexAtEnd (lexNextToken l).2) ∧
    (∀ (k : Nat) (l : Lexer), lexAtEnd l → (lexNth k l).tokType = "EOF") ∧
    (∀ l : Lexer, 0 ∉ l.input → lexCoherent l →
      (lexNextToken l).1.tokType = "EOF" →
      ∀ k : Nat, (lexNth k (lexNextToken l).2).tokType = "EOF") := by
  refine ⟨lexNextToken_atEnd, lexNth_atEnd, ?_⟩
  intro l hnul hcoh htok k
  exact lexNth_atEnd k _ (lexNextToken_eof_atEnd l hnul hcoh htok)

/-- Witness for c10_eof_absorbing_amended: the lexer over the one-byte
input "a", after producing the IDENT token, has returned EOF once and
keeps returning EOF. -/
theorem c10_eof_absorbing_amended_witness :
    (0 ∉ (lexNextToken (lexNew [97])).2.input ∧
      lexCoherent (lexNextToken (lexNew [97])).2 ∧
      (lexNextToken (lexNextToken (lexNew [97])).2).1.tokType = "EOF") ∧
    (lexNth 2 (lexNextToken (lexNextToken (lexNew [97])).2).2).tokType =
      "EOF" := by
  refine ⟨⟨by decide, ⟨by decide, by decide⟩, rfl⟩, ?_⟩
  exact c10_eof_absorbing_amended.2.2 (lexNextToken (lexNew [97])).2
    (by decide) ⟨by decide, by decide⟩ rfl 2
